import Mathlib

/-!
Shallow embedding of `src/s3_analyzer.py`: an S3 bucket analyzer that
enumerates buckets, collects per-bucket metadata (storage size, cost,
region, versioning, lifecycle, object-sample statistics) and renders an
Excel and a PDF report.  Object keys are modelled as lists of characters,
timestamps as integers (seconds), byte counts as rationals (the CloudWatch
values are averages), and each external service response as an explicit
datatype distinguishing a successful payload from a client error.
-/

namespace S3Analyzer

/-- Object keys (and file extensions) are lists of characters. -/
abbrev Key := List Char

/-- The part of `k` strictly after the last occurrence of `sep`; if `sep`
does not occur, all of `k`.  This is Python `k.split(sep)[-1]`. -/
def afterLastSep (sep : Char) (k : Key) : Key :=
  (k.reverse.takeWhile (fun c => decide (c ≠ sep))).reverse

/-- Python `os.path.basename(key)`: the part after the last path separator. -/
def basename (k : Key) : Key :=
  afterLastSep '/' k

/-- Python `key.split(sep)[0]` for `sep = '/'`: the first path segment. -/
def firstSegment (k : Key) : Key :=
  k.takeWhile (fun c => decide (c ≠ '/'))

/-- Python `key.split('.')[-1].lower()`: the lowercase suffix after the final
dot of the full key. -/
def lowerExt (k : Key) : Key :=
  (afterLastSep '.' k).map Char.toLower

/-- The `power_labels` dictionary of `format_bytes`. -/
def powerLabels : Nat → String
  | 0 => "B"
  | 1 => "KB"
  | 2 => "MB"
  | 3 => "GB"
  | 4 => "TB"
  | _ => ""

/-- The `while byte_count >= power and n < len(power_labels) - 1` loop of
`format_bytes`: repeatedly divide by 1024 and bump the unit index. -/
def formatLoop (b : ℚ) (n : Nat) : ℚ × Nat :=
  if 1024 ≤ b ∧ n < 4 then formatLoop (b / 1024) (n + 1) else (b, n)
termination_by 4 - n
decreasing_by omega

/-- Round a rational to the nearest integer, ties to even — the rounding
used by Python `format(x, '.2f')` on the exactly-represented values the
program produces (after scaling by 100). -/
def roundHalfEven (q : ℚ) : ℤ :=
  if q - ⌊q⌋ < 1/2 then ⌊q⌋
  else if 1/2 < q - ⌊q⌋ then ⌊q⌋ + 1
  else if Even ⌊q⌋ then ⌊q⌋ else ⌊q⌋ + 1

/-- Two-digit zero-padded decimal rendering of a number below 100. -/
def pad2 (n : Nat) : String :=
  if n < 10 then "0" ++ toString n else toString n

/-- Python `f"{q:.2f}"`: fixed-point rendering with two decimals. -/
def renderFixed2 (q : ℚ) : String :=
  let c : ℤ := roundHalfEven (q * 100)
  let sign := if c < 0 then "-" else ""
  let m := c.natAbs
  sign ++ toString (m / 100) ++ "." ++ pad2 (m % 100)

/-- `format_bytes(byte_count)`: `None` renders as the literal `"0.0 B"`;
otherwise the value is scaled into the unit range by `formatLoop` and
rendered with two decimals followed by the unit label. -/
def format_bytes (byte_count : Option ℚ) : String :=
  match byte_count with
  | none => "0.0 B"
  | some b =>
    let p := formatLoop b 0
    renderFixed2 p.1 ++ " " ++ powerLabels p.2

/-- Outcome of the CloudWatch `get_metric_data` call in
`get_bucket_storage_info`: either the `Values` list of the single metric
query result, or a `ClientError` with its error code. -/
inductive MetricsResult where
  | ok (values : List ℚ)
  | clientError (code : String)

/-- `get_bucket_storage_info`: on success, `total_size_bytes` starts at 0
and is replaced by the first value when the `Values` list is non-empty,
then formatted; on a `ClientError` the function logs and returns `"N/A"`. -/
def get_bucket_storage_info : MetricsResult → String
  | .ok values =>
    let total_size_bytes : ℚ :=
      match values with
      | [] => 0
      | v :: _ => v
    format_bytes (some total_size_bytes)
  | .clientError _ => "N/A"

/-- Outcome of the Cost Explorer `get_cost_and_usage` call in
`get_bucket_cost`: either the blended-cost amount, or a `ClientError`. -/
inductive CostResult where
  | ok (amount : ℚ)
  | clientError (code : String)

/-- `get_bucket_cost`: a successful amount renders as a dollar figure with
two decimals; any `ClientError` (including `ValidationException`, which only
changes the logged hint) yields `"N/A"`. -/
def get_bucket_cost : CostResult → String
  | .ok amount => "$" ++ renderFixed2 amount
  | .clientError _ => "N/A"

/-- One object of a bucket listing: its key and its `LastModified`
timestamp (seconds). -/
structure S3Object where
  key : Key
  lastModified : ℤ

/-- Running state of the `analyze_objects` scan loop:
`first_record_date`, `last_record_date`, `folder_structure`, `doc_types`
(the extension histogram, a total function defaulting to 0) and
`obj_count`. -/
structure ScanState where
  first : Option ℤ
  last : Option ℤ
  prefixes : List Key
  hist : Key → Nat
  count : Nat

/-- The initial scan state of `analyze_objects`. -/
def initState : ScanState :=
  { first := none, last := none, prefixes := [], hist := fun _ => 0, count := 0 }

/-- The body of the `for obj in page['Contents']` loop of `analyze_objects`:
bump the count, update min/max modification time, insert the first path
segment when the key contains a separator, and bump the histogram at the
lowercase suffix after the final dot when the base filename contains a
dot. -/
def processObject (s : ScanState) (o : S3Object) : ScanState :=
  let count := s.count + 1
  let first :=
    match s.first with
    | none => some o.lastModified
    | some f => if o.lastModified < f then some o.lastModified else some f
  let last :=
    match s.last with
    | none => some o.lastModified
    | some l => if l < o.lastModified then some o.lastModified else some l
  let prefixes :=
    if ('/' : Char) ∈ o.key then s.prefixes.insert (firstSegment o.key)
    else s.prefixes
  let hist :=
    if ('.' : Char) ∈ basename o.key then
      fun e => if e = lowerExt o.key then s.hist (lowerExt o.key) + 1 else s.hist e
    else s.hist
  { first := first, last := last, prefixes := prefixes, hist := hist, count := count }

/-- The paginated scan of `analyze_objects` over the flattened listing:
process objects in order and break out of both loops as soon as
`obj_count >= sample_size` holds after processing an object. -/
def analyzeLoop (sample_size : Nat) : ScanState → List S3Object → ScanState
  | s, [] => s
  | s, o :: rest =>
    let s2 := processObject s o
    if sample_size ≤ s2.count then s2 else analyzeLoop sample_size s2 rest

/-- The scan state reached by `analyze_objects` with the given cap. -/
def analyzeState (sample_size : Nat) (objs : List S3Object) : ScanState :=
  analyzeLoop sample_size initState objs

/-- `analyze_objects(s3_client, bucket_name)` on a successful listing,
with the default `sample_size=1000` used by the caller: returns
`(first_record_date, last_record_date, folder_structure, doc_types)`. -/
def analyze_objects (objs : List S3Object) :
    Option ℤ × Option ℤ × List Key × (Key → Nat) :=
  let s := analyzeState 1000 objs
  (s.first, s.last, s.prefixes, s.hist)

/-- Seconds in a day, used to model `timedelta.days` (floor division). -/
def secondsPerDay : ℤ := 86400

/-- The `is_working` computation of `get_s3_insights`:
`"Yes" if last_record_date and (now - last_record_date).days < 30 else "No"`.
`timedelta.days` floors, which `Int.fdiv` models. -/
def is_working (now : ℤ) (last : Option ℤ) : String :=
  match last with
  | none => "No"
  | some t => if Int.fdiv (now - t) secondsPerDay < 30 then "Yes" else "No"

/-- Outcome of `get_bucket_lifecycle_configuration`: either some lifecycle
configuration exists, or a `ClientError` with its code. -/
inductive LifecycleResult where
  | ok
  | clientError (code : String)

/-- The inner try/except of `get_s3_insights` around the lifecycle query:
success means `"Enabled"`, the `NoSuchLifecycleConfiguration` error code
means `"Not Enabled"`, and any other `ClientError` is re-raised. -/
def deletionPolicyOf : LifecycleResult → Except String String
  | .ok => .ok "Enabled"
  | .clientError code =>
    if code = "NoSuchLifecycleConfiguration" then .ok "Not Enabled"
    else .error code

/-- All per-bucket inputs that the external services supply to one
iteration of the `get_s3_insights` loop. -/
structure BucketInput where
  name : String
  creationDate : String
  storage : MetricsResult
  costResult : CostResult
  location : Option String
  versioning : Option String
  lifecycle : LifecycleResult
  listing : Except String (List S3Object)

/-- One row appended to `buckets_data`. -/
structure BucketRecord where
  accountProfile : String
  bucketName : String
  totalStorage : String
  estCost : String
  creationDate : String
  region : String
  versioning : String
  deletionPolicy : String
  isWorking : String
deriving DecidableEq

/-- The body of the per-bucket loop of `get_s3_insights`: build one
`BucketRecord`, or propagate the error that the lifecycle branch re-raises
(the outer per-bucket except then skips the bucket).  The empty or absent
location constraint normalizes to `us-east-1`; a missing versioning status
defaults to `Not Enabled`; a listing `ClientError` degrades object analysis
to the empty summary instead of failing the record. -/
def collectRecord (now : ℤ) (profile : String) (b : BucketInput) :
    Except String BucketRecord :=
  let total_storage := get_bucket_storage_info b.storage
  let estimated_cost := get_bucket_cost b.costResult
  let location :=
    match b.location with
    | none => "us-east-1"
    | some s => if s = "" then "us-east-1" else s
  let versioning_status := b.versioning.getD "Not Enabled"
  match deletionPolicyOf b.lifecycle with
  | .error code => .error code
  | .ok deletion_policy =>
    let res :=
      match b.listing with
      | .error _ => (none, none, ([] : List Key), (fun _ => 0 : Key → Nat))
      | .ok objs => analyze_objects objs
    let is_w := is_working now res.2.1
    .ok { accountProfile := profile, bucketName := b.name,
          totalStorage := total_storage, estCost := estimated_cost,
          creationDate := b.creationDate, region := location,
          versioning := versioning_status, deletionPolicy := deletion_policy,
          isWorking := is_w }

/-- The `buckets_data` list built by `get_s3_insights`: buckets whose
record construction raised are skipped, the rest are appended in order. -/
def buildTable (now : ℤ) (profile : String) (bs : List BucketInput) :
    List BucketRecord :=
  bs.filterMap (fun b => (collectRecord now profile b).toOption)

/-- `sorted(df['Region'].unique())`: the distinct values in first-occurrence
order, then sorted ascending. -/
def sortedDistinct (l : List String) : List String :=
  l.dedup.insertionSort (fun a b => a ≤ b)

/-- The region histogram `df.groupby('Region')['Bucket Name'].count()`
shared by both renderers: one row per distinct region with the number of
records in that region. -/
def regionCounts (recs : List BucketRecord) : List (String × Nat) :=
  (sortedDistinct (recs.map (fun r => r.region))).map
    (fun reg => (reg, (recs.filter (fun r => decide (r.region = reg))).length))

/-- The workbook produced by `generate_excel_report`: the Summary sheet and
one sheet per region. -/
structure ExcelReport where
  summary : List (String × Nat)
  regionSheets : List (String × List BucketRecord)
deriving DecidableEq

/-- `generate_excel_report(df, aws_profile)` as the data it writes. -/
def generate_excel_report (recs : List BucketRecord) : ExcelReport :=
  { summary := regionCounts recs,
    regionSheets :=
      (sortedDistinct (recs.map (fun r => r.region))).map
        (fun reg => (reg, recs.filter (fun r => decide (r.region = reg)))) }

/-- One data row of a per-region PDF table: the record with the
`Account Profile` and `Region` columns dropped. -/
structure PdfRow where
  bucketName : String
  totalStorage : String
  estCost : String
  creationDate : String
  versioning : String
  deletionPolicy : String
  isWorking : String
deriving DecidableEq

/-- Drop the `Account Profile` and `Region` columns of a record. -/
def toPdfRow (r : BucketRecord) : PdfRow :=
  { bucketName := r.bucketName, totalStorage := r.totalStorage,
    estCost := r.estCost, creationDate := r.creationDate,
    versioning := r.versioning, deletionPolicy := r.deletionPolicy,
    isWorking := r.isWorking }

/-- The document produced by `generate_pdf_report`: title data, the summary
table, and one styled table per region. -/
structure PdfReport where
  profile : String
  summaryTable : List (String × Nat)
  sections : List (String × List PdfRow)
deriving DecidableEq

/-- `generate_pdf_report(df, aws_profile)` as the data it writes. -/
def generate_pdf_report (recs : List BucketRecord) (profile : String) :
    PdfReport :=
  { profile := profile,
    summaryTable := regionCounts recs,
    sections :=
      (sortedDistinct (recs.map (fun r => r.region))).map
        (fun reg => (reg, (recs.filter (fun r => decide (r.region = reg))).map toPdfRow)) }

/-- Result of one full run of `get_s3_insights` after client setup and
bucket enumeration succeeded: either the empty-table early exit with its
console message and no report artifacts, or both report artifacts. -/
inductive RunOutcome where
  | noReports (message : String)
  | reports (excel : ExcelReport) (pdf : PdfReport)

/-- The tail of `get_s3_insights`: build `buckets_data`; if it is empty,
print the message and return without generating reports, otherwise generate
both reports from the table. -/
def get_s3_insights (now : ℤ) (profile : String) (bs : List BucketInput) :
    RunOutcome :=
  let buckets_data := buildTable now profile bs
  if buckets_data = [] then
    .noReports "No buckets were found. Reports not generated."
  else
    .reports (generate_excel_report buckets_data)
      (generate_pdf_report buckets_data profile)

/-! ### Lemmas about the object scan -/

lemma processObject_count (s : ScanState) (o : S3Object) :
    (processObject s o).count = s.count + 1 := rfl

lemma analyzeLoop_eq_foldl (cap : Nat) (l : List S3Object) :
    ∀ s : ScanState, s.count < cap →
      analyzeLoop cap s l = (l.take (cap - s.count)).foldl processObject s := by
  induction l with
  | nil => intro s _; simp [analyzeLoop]
  | cons o rest ih =>
    intro s h
    by_cases hcap : cap ≤ (processObject s o).count
    · have h1 : cap - s.count = 1 := by
        have := processObject_count s o; omega
      simp [analyzeLoop, hcap, h1]
    · have h2 : (processObject s o).count < cap := by omega
      have h3 : cap - s.count = (cap - (processObject s o).count) + 1 := by
        have := processObject_count s o; omega
      rw [analyzeLoop, if_neg hcap, ih (processObject s o) h2, h3,
        List.take_succ_cons, List.foldl_cons]

lemma foldl_processObject_count (l : List S3Object) :
    ∀ s : ScanState, (l.foldl processObject s).count = s.count + l.length := by
  induction l with
  | nil => intro s; simp
  | cons o rest ih =>
    intro s
    rw [List.foldl_cons, ih (processObject s o), processObject_count]
    simp; omega

/-- The Boolean predicate tracked by the extension histogram: the base
filename contains a dot and the lowercase suffix after the final dot of the
full key equals `e`. -/
def histPred (e : Key) (k : Key) : Bool :=
  decide (('.' : Char) ∈ basename k) && decide (lowerExt k = e)

lemma processObject_hist (s : ScanState) (o : S3Object) (e : Key) :
    (processObject s o).hist e = s.hist e + (if histPred e o.key then 1 else 0) := by
  unfold processObject histPred
  by_cases hdot : ('.' : Char) ∈ basename o.key
  · by_cases he : e = lowerExt o.key
    · simp [hdot, he]
    · simp [hdot, he, Ne.symm he]
  · simp [hdot]

lemma foldl_processObject_hist (l : List S3Object) (e : Key) :
    ∀ s : ScanState, (l.foldl processObject s).hist e =
      s.hist e + (l.map (fun o => o.key)).countP (histPred e) := by
  induction l with
  | nil => intro s; simp
  | cons o rest ih =>
    intro s
    rw [List.foldl_cons, ih (processObject s o), processObject_hist,
      List.map_cons, List.countP_cons]
    omega

lemma processObject_prefixes_mem (s : ScanState) (o : S3Object) (p : Key) :
    p ∈ (processObject s o).prefixes ↔
      p ∈ s.prefixes ∨ (('/' : Char) ∈ o.key ∧ p = firstSegment o.key) := by
  unfold processObject
  by_cases hsep : ('/' : Char) ∈ o.key
  · simp only [hsep, if_pos, and_true, List.mem_insert_iff]
    tauto
  · simp [hsep]

lemma foldl_processObject_prefixes (l : List S3Object) (p : Key) :
    ∀ s : ScanState, p ∈ (l.foldl processObject s).prefixes ↔
      p ∈ s.prefixes ∨ ∃ o ∈ l, ('/' : Char) ∈ o.key ∧ p = firstSegment o.key := by
  induction l with
  | nil => intro s; simp
  | cons o rest ih =>
    intro s
    rw [List.foldl_cons, ih (processObject s o), processObject_prefixes_mem]
    constructor
    · rintro ((hs | ho) | ⟨o', ho', h⟩)
      · exact Or.inl hs
      · exact Or.inr ⟨o, List.mem_cons_self o rest, ho⟩
      · exact Or.inr ⟨o', List.mem_cons_of_mem o ho', h⟩
    · rintro (hs | ⟨o', ho', h⟩)
      · exact Or.inl (Or.inl hs)
      · rcases List.mem_cons.mp ho' with rfl | ho'
        · exact Or.inl (Or.inr h)
        · exact Or.inr ⟨o', ho', h⟩

lemma analyzeState_eq_foldl (objs : List S3Object) :
    analyzeState 1000 objs = (objs.take 1000).foldl processObject initState := by
  have h := analyzeLoop_eq_foldl 1000 objs initState (by norm_num [initState])
  simpa [analyzeState, initState] using h

/-! ### Lemmas about basenames and extensions -/

lemma takeWhile_eq_takeWhile_takeWhile {α : Type} (p q : α → Bool)
    (l : List α) (a : α) (ha : a ∈ l.takeWhile p) (hqa : q a = false) :
    l.takeWhile q = (l.takeWhile p).takeWhile q := by
  induction l with
  | nil => simp at ha
  | cons x xs ih =>
    by_cases hp : p x
    · rw [List.takeWhile_cons_of_pos hp] at ha ⊢
      by_cases hq : q x
      · rw [List.takeWhile_cons_of_pos hq, List.takeWhile_cons_of_pos hq]
        rcases List.mem_cons.mp ha with rfl | ha'
        · rw [hqa] at hq; exact absurd hq (by simp)
        · rw [ih ha']
      · rw [List.takeWhile_cons_of_neg (by simpa using hq),
          List.takeWhile_cons_of_neg (by simpa using hq)]
    · rw [List.takeWhile_cons_of_neg (by simpa using hp)] at ha
      simp at ha

lemma afterLastSep_dot_of_mem_basename (k : Key)
    (h : ('.' : Char) ∈ basename k) :
    afterLastSep '.' k = afterLastSep '.' (basename k) := by
  unfold basename afterLastSep at h ⊢
  rw [List.mem_reverse] at h
  rw [List.reverse_reverse]
  rw [takeWhile_eq_takeWhile_takeWhile
    (fun c => decide (c ≠ '/')) (fun c => decide (c ≠ '.')) k.reverse '.' h
    (by simp)]

/-! ### Claims about the object scan and the working-bucket flag -/

/-- Claim C2: the is-working flag is `"Yes"` if and only if a last-seen
timestamp exists and the elapsed time between analysis time and that
timestamp is strictly less than 30 days; in every other case it is
`"No"`. -/
theorem claim_C2 (now : ℤ) (last : Option ℤ) :
    (is_working now last = "Yes" ↔
      ∃ t, last = some t ∧ now - t < 30 * secondsPerDay) ∧
    (is_working now last = "Yes" ∨ is_working now last = "No") := by
  cases last with
  | none => refine ⟨by simp [is_working], Or.inr rfl⟩
  | some t =>
    have h : Int.fdiv (now - t) secondsPerDay < 30 ↔
        now - t < 30 * secondsPerDay := by
      rw [Int.fdiv_eq_ediv _ (by norm_num [secondsPerDay])]
      unfold secondsPerDay
      omega
    by_cases hc : Int.fdiv (now - t) secondsPerDay < 30
    · exact ⟨by simp [is_working, hc, h.mp hc], Or.inl (by simp [is_working, hc])⟩
    · refine ⟨?_, Or.inr (by simp [is_working, hc])⟩
      simp only [is_working, if_neg hc]
      constructor
      · intro hno; exact absurd hno (by decide)
      · rintro ⟨t', ht', hlt⟩
        obtain rfl : t = t' := by injection ht'
        exact absurd (h.mpr hlt) hc

/-- Claim C4: the extension histogram of the scan counts, at each extension
`e`, exactly those scanned keys whose base filename contains a dot and
whose lowercase suffix after the final dot of the base filename equals `e`;
keys whose base filename has no dot (including keys with dots only in
directory segments) are not counted. -/
theorem claim_C4 (objs : List S3Object) (e : Key) :
    (analyze_objects objs).2.2.2 e =
      ((objs.take 1000).map (fun o => o.key)).countP
        (fun k => decide (('.' : Char) ∈ basename k) &&
          decide ((afterLastSep '.' (basename k)).map Char.toLower = e)) := by
  unfold analyze_objects
  simp only
  rw [analyzeState_eq_foldl, foldl_processObject_hist]
  have h0 : initState.hist e = 0 := rfl
  rw [h0, Nat.zero_add]
  refine List.countP_congr ?_
  intro k _
  unfold histPred lowerExt
  by_cases hdot : ('.' : Char) ∈ basename k
  · rw [afterLastSep_dot_of_mem_basename k hdot]
  · simp [hdot]

/-- Claim C5: the scan inspects at most 1000 objects: its result equals the
result on the first 1000 objects of the listing, and the number of objects
inspected is exactly the minimum of the listing length and 1000 (so a
listing of exactly 1000 objects is scanned in full). -/
theorem claim_C5 (objs : List S3Object) :
    analyze_objects objs = analyze_objects (objs.take 1000) ∧
    (analyzeState 1000 objs).count = min objs.length 1000 := by
  constructor
  · unfold analyze_objects
    rw [analyzeState_eq_foldl, analyzeState_eq_foldl, List.take_take]
    simp
  · rw [analyzeState_eq_foldl, foldl_processObject_count, List.length_take]
    have h0 : initState.count = 0 := rfl
    rw [h0]
    omega

/-- Claim C9: a first path segment is in the top-level-prefix set of the
scan exactly when some scanned key contains a path separator and has that
first segment; keys without a separator contribute nothing. -/
theorem claim_C9 (objs : List S3Object) (p : Key) :
    p ∈ (analyze_objects objs).2.2.1 ↔
      ∃ o ∈ objs.take 1000, ('/' : Char) ∈ o.key ∧ p = firstSegment o.key := by
  unfold analyze_objects
  simp only
  rw [analyzeState_eq_foldl, foldl_processObject_prefixes]
  have h0 : initState.prefixes = [] := rfl
  rw [h0]
  simp

/-- Claim C10: an object whose key ends with a dot has a base filename that
contains a dot and an empty suffix after the final dot, so the scan counts
it in the histogram under the empty extension rather than excluding it. -/
theorem claim_C10 (s : ScanState) (k : Key) (t : ℤ) (k0 : Key)
    (hk : k = k0 ++ ['.']) :
    ('.' : Char) ∈ basename k ∧ lowerExt k = [] ∧
      (processObject s ⟨k, t⟩).hist [] = s.hist [] + 1 := by
  subst hk
  have hrev : (k0 ++ ['.']).reverse = '.' :: k0.reverse := by simp
  have hbase : ('.' : Char) ∈ basename (k0 ++ ['.']) := by
    unfold basename afterLastSep
    rw [hrev, List.takeWhile_cons_of_pos (by decide)]
    simp
  have hext : lowerExt (k0 ++ ['.']) = [] := by
    unfold lowerExt afterLastSep
    rw [hrev, List.takeWhile_cons_of_neg (by decide)]
    simp
  refine ⟨hbase, hext, ?_⟩
  rw [processObject_hist]
  have hp : histPred [] (k0 ++ ['.']) = true := by
    unfold histPred lowerExt at hext ⊢
    simp [hbase, hext]
  rw [hp]
  simp

/-- Witness for C10 at the concrete key `file.`: its histogram entry for
the empty extension goes from 0 to 1. -/
theorem claim_C10_witness :
    ('.' : Char) ∈ basename ['f', 'i', 'l', 'e', '.'] ∧
      lowerExt ['f', 'i', 'l', 'e', '.'] = [] ∧
      (processObject initState ⟨['f', 'i', 'l', 'e', '.'], 0⟩).hist [] =
        initState.hist [] + 1 :=
  claim_C10 initState ['f', 'i', 'l', 'e', '.'] 0 ['f', 'i', 'l', 'e'] rfl

/-! ### Claims about the size formatter and the storage lookup -/

lemma formatLoop_spec : ∀ (b : ℚ) (n : Nat), 0 ≤ b →
    0 ≤ (formatLoop b n).1 ∧ n ≤ (formatLoop b n).2 ∧
      ((formatLoop b n).2 < 4 → (formatLoop b n).1 < 1024) ∧
      (n ≤ 4 → (formatLoop b n).2 ≤ 4) := by
  intro b n
  induction b, n using formatLoop.induct with
  | case1 b n h ih =>
    intro hb
    rw [formatLoop, if_pos h]
    obtain ⟨h1, h2, h3, h4⟩ := ih (by positivity)
    exact ⟨h1, by omega, h3, fun _ => h4 (by omega)⟩
  | case2 b n h =>
    intro hb
    rw [formatLoop, if_neg h]
    refine ⟨hb, le_refl n, ?_, fun hn => hn⟩
    intro hn4
    by_contra hge
    push_neg at hge
    exact h ⟨hge, hn4⟩

/-- Claim C3 (amended): for every byte count `b ≥ 0` the formatter picks a
unit index at most 4 (so a unit among B, KB, MB, GB, TB), the scaled value
handed to the two-decimal renderer is nonnegative and is below 1024
whenever the unit is not the top unit, the output string is that rendered
value followed by the unit label, and an absent input formats as the
literal `"0.0 B"`.  (The claim as frozen also asserts that the numeric part
of the returned string is below 1024; that fails because the two-decimal
rounding can display `1024.00`, see the counterexample.) -/
theorem claim_C3 (b : ℚ) (hb : 0 ≤ b) :
    (formatLoop b 0).2 ≤ 4 ∧ 0 ≤ (formatLoop b 0).1 ∧
      ((formatLoop b 0).2 < 4 → (formatLoop b 0).1 < 1024) ∧
      format_bytes (some b) =
        renderFixed2 (formatLoop b 0).1 ++ " " ++ powerLabels (formatLoop b 0).2 ∧
      format_bytes none = "0.0 B" := by
  obtain ⟨h1, _, h3, h4⟩ := formatLoop_spec b 0 hb
  exact ⟨h4 (by norm_num), h1, h3, rfl, rfl⟩

/-- Witness for C3 at the concrete byte count 5. -/
theorem claim_C3_witness :
    (0 : ℚ) ≤ 5 ∧
      ((formatLoop 5 0).2 ≤ 4 ∧ 0 ≤ (formatLoop 5 0).1 ∧
        ((formatLoop 5 0).2 < 4 → (formatLoop 5 0).1 < 1024) ∧
        format_bytes (some 5) =
          renderFixed2 (formatLoop 5 0).1 ++ " " ++ powerLabels (formatLoop 5 0).2 ∧
        format_bytes none = "0.0 B") :=
  ⟨by norm_num, claim_C3 5 (by norm_num)⟩

/-- Counterexample for C3 as frozen: at 1048575 bytes the unit index is 1
(unit `KB`, not the top unit) yet the rendered string is `"1024.00 KB"`,
whose numeric part is 1024, outside `[0, 1024)`: the loop exits with the
value 1048575/1024 < 1024 but the two-decimal rounding displays 1024.00. -/
theorem claim_C3_counterexample :
    format_bytes (some 1048575) = "1024.00 KB" ∧
      (formatLoop 1048575 0).2 = 1 ∧
      roundHalfEven ((formatLoop 1048575 0).1 * 100) = 102400 := by
  have h1 : formatLoop (1048575 : ℚ) 0 = (1048575 / 1024, 1) := by
    rw [formatLoop, if_pos (by norm_num), formatLoop, if_neg (by norm_num)]
  have hq : ((1048575 : ℚ) / 1024) * 100 = 26214375 / 256 := by norm_num
  have hf : ⌊(26214375 / 256 : ℚ)⌋ = 102399 := by
    rw [Int.floor_eq_iff]
    constructor <;> norm_num
  have h2 : roundHalfEven ((1048575 / 1024 : ℚ) * 100) = 102400 := by
    rw [hq]
    unfold roundHalfEven
    rw [hf]
    norm_num
  have h3 : renderFixed2 (1048575 / 1024 : ℚ) = "1024.00" := by
    simp only [renderFixed2, h2]
    rfl
  refine ⟨?_, by rw [h1], by rw [h1]; exact h2⟩
  show renderFixed2 (formatLoop (1048575 : ℚ) 0).1 ++ " " ++
    powerLabels (formatLoop (1048575 : ℚ) 0).2 = "1024.00 KB"
  rw [h1]
  rw [h3]
  rfl

/-- Claim C1 (amended): a client error from the metrics service yields the
unavailable marker `"N/A"`, and the storage result never decides whether
the record is built: replacing the metrics outcome of a bucket whose record
was collected only replaces the total-storage field of that record.  (The
claim as frozen also asserts that an empty values list yields `"N/A"`; the
code instead formats the initial size 0, see the counterexample.) -/
theorem claim_C1_amended :
    (∀ code, get_bucket_storage_info (MetricsResult.clientError code) = "N/A") ∧
    (∀ (now : ℤ) (profile : String) (b : BucketInput) (m : MetricsResult)
      (r : BucketRecord), collectRecord now profile b = .ok r →
        collectRecord now profile { b with storage := m } =
          .ok { r with totalStorage := get_bucket_storage_info m }) := by
  constructor
  · intro code; rfl
  · intro now profile b m r h
    unfold collectRecord at h ⊢
    cases hd : deletionPolicyOf b.lifecycle with
    | error code =>
      rw [hd] at h
      exact absurd h (by simp)
    | ok dp =>
      rw [hd] at h
      simp only [Except.ok.injEq] at h
      subst h
      rfl

/-- Counterexample for C1 as frozen: an empty values list produces the
formatted zero size `"0.00 B"`, not the unavailable marker `"N/A"`. -/
theorem claim_C1_counterexample :
    get_bucket_storage_info (MetricsResult.ok []) = "0.00 B" ∧
      ("0.00 B" : String) ≠ "N/A" := by
  constructor
  · show format_bytes (some 0) = "0.00 B"
    have h1 : formatLoop (0 : ℚ) 0 = (0, 0) := by
      rw [formatLoop, if_neg (by norm_num)]
    have h2 : roundHalfEven ((0 : ℚ) * 100) = 0 := by
      unfold roundHalfEven
      norm_num
    simp only [format_bytes, h1]
    simp only [renderFixed2, h2]
    rfl
  · decide

/-! ### Concrete sample inputs used by witnesses -/

/-- A bucket input whose metrics and cost queries fail, whose lifecycle
query reports no configuration, and whose listing is empty. -/
def sampleInput : BucketInput :=
  { name := "logs-bucket", creationDate := "2024-01-01",
    storage := .clientError "AccessDenied",
    costResult := .clientError "ValidationException",
    location := none, versioning := none,
    lifecycle := .clientError "NoSuchLifecycleConfiguration",
    listing := .ok [] }

/-- The record `collectRecord` builds for `sampleInput`. -/
def sampleRecord : BucketRecord :=
  { accountProfile := "default", bucketName := "logs-bucket",
    totalStorage := "N/A", estCost := "N/A", creationDate := "2024-01-01",
    region := "us-east-1", versioning := "Not Enabled",
    deletionPolicy := "Not Enabled", isWorking := "No" }

/-- `sampleInput` with a lifecycle query failing with an unexpected code. -/
def sampleBadInput : BucketInput :=
  { sampleInput with lifecycle := .clientError "AccessDenied" }

/-- Witness for C1 at `sampleInput`: its record is collected, and swapping
in a throttled metrics outcome only swaps the total-storage field. -/
theorem claim_C1_witness :
    collectRecord 0 "default" sampleInput = Except.ok sampleRecord ∧
      collectRecord 0 "default"
          { sampleInput with storage := MetricsResult.clientError "Throttled" } =
        Except.ok { sampleRecord with
          totalStorage := get_bucket_storage_info (MetricsResult.clientError "Throttled") } :=
  ⟨rfl, claim_C1_amended.2 0 "default" sampleInput
    (MetricsResult.clientError "Throttled") sampleRecord rfl⟩

/-! ### Claims about the lifecycle branch, the empty guard and the summaries -/

/-- Claim C6: a `NoSuchLifecycleConfiguration` response sets the
deletion-policy field to `"Not Enabled"` and the record is still built,
while any other lifecycle error code makes the record collection fail with
that code, and such a bucket contributes nothing to the table. -/
theorem claim_C6 (now : ℤ) (profile : String) (b : BucketInput) :
    (b.lifecycle = .clientError "NoSuchLifecycleConfiguration" →
      ∃ r, collectRecord now profile b = .ok r ∧
        r.deletionPolicy = "Not Enabled") ∧
    (∀ code, b.lifecycle = .clientError code →
      code ≠ "NoSuchLifecycleConfiguration" →
      collectRecord now profile b = .error code ∧
      ∀ pre post, buildTable now profile (pre ++ b :: post) =
        buildTable now profile (pre ++ post)) := by
  constructor
  · intro h
    have hd : deletionPolicyOf b.lifecycle = .ok "Not Enabled" := by
      rw [h]
      simp [deletionPolicyOf]
    exact ⟨_, by unfold collectRecord; rw [hd], rfl⟩
  · intro code h hne
    have hd : deletionPolicyOf b.lifecycle = .error code := by
      rw [h]
      simp [deletionPolicyOf, hne]
    have hc : collectRecord now profile b = .error code := by
      unfold collectRecord
      rw [hd]
    refine ⟨hc, ?_⟩
    intro pre post
    unfold buildTable
    rw [List.filterMap_append, List.filterMap_append, List.filterMap_cons, hc]
    rfl

/-- Witness for C6 at `sampleInput` (no-lifecycle case) and
`sampleBadInput` (unexpected code): the former yields a record with
deletion policy `"Not Enabled"`, the latter is skipped. -/
theorem claim_C6_witness :
    (∃ r, collectRecord 0 "default" sampleInput = .ok r ∧
      r.deletionPolicy = "Not Enabled") ∧
      collectRecord 0 "default" sampleBadInput = Except.error "AccessDenied" ∧
      buildTable 0 "default" ([] ++ sampleBadInput :: []) =
        buildTable 0 "default" ([] ++ []) := by
  have h1 := (claim_C6 0 "default" sampleInput).1 rfl
  have h2 := (claim_C6 0 "default" sampleBadInput).2 "AccessDenied" rfl (by decide)
  exact ⟨h1, h2.1, h2.2 [] []⟩

/-- Claim C7: if bucket enumeration yields no buckets, or every per-bucket
collection fails, the run takes the empty-table early exit: it reports the
message to the operator and produces neither report artifact. -/
theorem claim_C7 (now : ℤ) (profile : String) (bs : List BucketInput)
    (h : bs = [] ∨ ∀ b ∈ bs, ∃ code, collectRecord now profile b = .error code) :
    get_s3_insights now profile bs =
      RunOutcome.noReports "No buckets were found. Reports not generated." := by
  have hempty : buildTable now profile bs = [] := by
    rcases h with rfl | hall
    · rfl
    · rw [buildTable, List.filterMap_eq_nil_iff]
      intro b hb
      obtain ⟨code, hc⟩ := hall b hb
      rw [hc]
      rfl
  unfold get_s3_insights
  rw [hempty]
  rfl

/-- Witness for C7 at the empty enumeration. -/
theorem claim_C7_witness :
    (([] : List BucketInput) = [] ∨
      ∀ b ∈ ([] : List BucketInput), ∃ code,
        collectRecord 0 "default" b = .error code) ∧
      get_s3_insights 0 "default" [] =
        RunOutcome.noReports "No buckets were found. Reports not generated." :=
  ⟨Or.inl rfl, claim_C7 0 "default" [] (Or.inl rfl)⟩

lemma mem_sortedDistinct (l : List String) (a : String) :
    a ∈ sortedDistinct l ↔ a ∈ l := by
  unfold sortedDistinct
  rw [(List.perm_insertionSort _ _).mem_iff, List.mem_dedup]

/-- Claim C8: the Excel summary sheet and the PDF summary table are the
same region histogram, and a row `(reg, n)` appears in it exactly when some
record has region `reg` and `n` is the number of records with that
region. -/
theorem claim_C8 (recs : List BucketRecord) (profile : String)
    (reg : String) (n : Nat) :
    (generate_excel_report recs).summary =
      (generate_pdf_report recs profile).summaryTable ∧
    ((reg, n) ∈ (generate_excel_report recs).summary ↔
      reg ∈ recs.map (fun r => r.region) ∧
        n = (recs.filter (fun r => decide (r.region = reg))).length) := by
  refine ⟨rfl, ?_⟩
  show (reg, n) ∈ regionCounts recs ↔ _
  unfold regionCounts
  rw [List.mem_map]
  constructor
  · rintro ⟨x, hx, hxe⟩
    obtain ⟨rfl, rfl⟩ := Prod.mk.injEq .. |>.mp hxe
    exact ⟨(mem_sortedDistinct _ _).mp hx, rfl⟩
  · rintro ⟨hreg, rfl⟩
    exact ⟨reg, (mem_sortedDistinct _ _).mpr hreg, rfl⟩

end S3Analyzer
